import Mathlib

/-!
# Verification of the TestCad 2D drafting engine

Shallow embedding of the drafting engine's core: the document store with its
spatial index (`src/app/store.js`), the snap resolution engine
(`src/core/snapping/SnapEngine.js`), the command bus (`src/app/commandBus.js`)
and the Move command commit path (`src/app/MoveCommand.js`), together with
theorems settling the specification's claims about them.

JS numbers are modelled as real numbers; JS `Map`s as insertion-ordered
association lists; the RBush spatial index as the list of its records, with
`search` returning every record whose box intersects the query box.
-/

namespace TestCad

noncomputable section

/-- A 2D point in world or screen coordinates (source: plain `{x, y}` objects). -/
structure Point where
  x : ℝ
  y : ℝ

/-- An axis-aligned bounding box `{minX, minY, maxX, maxY}`. -/
structure Bounds where
  minX : ℝ
  minY : ℝ
  maxX : ℝ
  maxY : ℝ

/-- Kind-specific geometry of an entity: the `type` tag of the source together
with the fields that tag selects (`start`/`end`, `center`/`radius`,
`startAngle`/`endAngle`, `corner1`/`corner2`, `vertices`). -/
inductive EntityGeo where
  | line (start end_ : Point)
  | circle (center : Point) (radius : ℝ)
  | arc (center : Point) (radius startAngle endAngle : ℝ)
  | rectangle (corner1 corner2 : Point)
  | polyline (vertices : List Point)

/-- An entity as stored in the document store.  Entities in the store are plain
objects (`addEntity` spreads them), so they are records of their fields; the
presentation attributes that no store or snap operation reads are carried as
defaulted fields. -/
structure Entity where
  id : String
  geo : EntityGeo
  layerId : String := "0"
  color : Option String := none

/-- One spatial-index record `(boundingBox, entityId)` as inserted by the store. -/
structure IndexRecord where
  minX : ℝ
  minY : ℝ
  maxX : ℝ
  maxY : ℝ
  entityId : String

/-- The store's `snap` settings object. -/
structure SnapSettings where
  enabled : Bool := true
  endpoint : Bool := true
  midpoint : Bool := true
  center : Bool := true
  intersection : Bool := true
  perpendicular : Bool := true
  tangent : Bool := true
  nearest : Bool := true
  grid : Bool := false

/-- The document store state: entity map, selection set, spatial-index
contents, snap settings and the active-command marker.  The JS `Map` is
modelled as an insertion-ordered association list and the JS `Set` of selected
ids as a list of ids. -/
structure Store where
  entities : List (String × Entity) := []
  selection : List String := []
  index : List IndexRecord := []
  snap : SnapSettings := {}
  currentCommand : Option String := none

/-- JS `Map.prototype.set`: overwrite the entry in place if the key is present,
otherwise append a new entry. -/
def mapSet {α : Type} (k : String) (v : α) : List (String × α) → List (String × α)
  | [] => [(k, v)]
  | (k', v') :: rest => if k' = k then (k, v) :: rest else (k', v') :: mapSet k v rest

/-- JS `Map.prototype.get`: the value stored under the key, if any. -/
def mapLookup {α : Type} (k : String) : List (String × α) → Option α
  | [] => none
  | (k', v) :: rest => if k' = k then some v else mapLookup k rest

/-- JS `Map.prototype.delete`: drop the entry stored under the key. -/
def mapDelete {α : Type} (k : String) : List (String × α) → List (String × α)
  | [] => []
  | (k', v) :: rest => if k' = k then mapDelete k rest else (k', v) :: mapDelete k rest

/-- JS `Set.prototype.delete` on the selection set. -/
def setDelete (k : String) : List String → List String
  | [] => []
  | s :: rest => if s = k then setDelete k rest else s :: setDelete k rest

/-- Source `getEntityBounds` from `store.js`: bounding box per entity kind.  The
source's `default: return null` branch is unreachable over the five modelled
kinds, hence the `Option` result with every kind returning `some`.  For `arc`
the source computes `startPoint`/`endPoint` but then returns the full-circle
bounds unchanged (marked `TODO` in the source), so the arc case is the circle
bounds of the arc's supporting circle. -/
def getEntityBounds (e : Entity) : Option Bounds :=
  match e.geo with
  | .line s e_ =>
      some ⟨min s.x e_.x, min s.y e_.y, max s.x e_.x, max s.y e_.y⟩
  | .circle c r =>
      some ⟨c.x - r, c.y - r, c.x + r, c.y + r⟩
  | .rectangle c1 c2 =>
      some ⟨min c1.x c2.x, min c1.y c2.y, max c1.x c2.x, max c1.y c2.y⟩
  | .arc c r _ _ =>
      -- the source also builds startPoint/endPoint here, but returns the
      -- full-circle bounds ("For simplicity, use the full circle bounds for
      -- now // TODO: Implement proper arc bounds calculation")
      some ⟨c.x - r, c.y - r, c.x + r, c.y + r⟩
  | .polyline vs =>
      match vs with
      | [] => some ⟨0, 0, 0, 0⟩
      | v :: rest =>
          some (rest.foldl
            (fun b w => ⟨min b.minX w.x, min b.minY w.y, max b.maxX w.x, max b.maxY w.y⟩)
            ⟨v.x, v.y, v.x, v.y⟩)

/-- Box intersection test used by RBush `search` between a query box and a
stored record. -/
def recordIntersects (b : Bounds) (r : IndexRecord) : Prop :=
  b.minX ≤ r.maxX ∧ b.minY ≤ r.maxY ∧ r.minX ≤ b.maxX ∧ r.minY ≤ b.maxY

instance (b : Bounds) (r : IndexRecord) : Decidable (recordIntersects b r) :=
  inferInstanceAs (Decidable (_ ≤ _ ∧ _ ≤ _ ∧ _ ≤ _ ∧ _ ≤ _))

/-- RBush `search(bounds)`: every stored record whose box intersects the query
box. -/
def search (b : Bounds) (idx : List IndexRecord) : List IndexRecord :=
  idx.filter fun r => decide (recordIntersects b r)

/-- Source `spatialIndex.all().find(item => item.entityId === id)` followed by
`spatialIndex.remove(item)`: remove the first record carrying the given entity
id, if any. -/
def removeFirstRecord (id : String) : List IndexRecord → List IndexRecord
  | [] => []
  | r :: rs => if r.entityId = id then rs else r :: removeFirstRecord id rs

/-- Number of index records carrying a given entity id.  The store maintains
the invariant of at most one record per entity (one insert per add, one
removal per remove/update). -/
def countRecords (id : String) : List IndexRecord → Nat
  | [] => 0
  | r :: rs => (if r.entityId = id then 1 else 0) + countRecords id rs

/-- Source `addEntity` from `store.js`: put the entity into the entity map, then
insert an index record for its bounds.  The source draws a fresh uuid when
`entity.id` is absent; in the embedding every entity already carries its id. -/
def addEntity (e : Entity) (st : Store) : Store :=
  let st' := { st with entities := mapSet e.id e st.entities }
  match getEntityBounds e with
  | some b =>
      { st' with index := st.index ++ [⟨b.minX, b.minY, b.maxX, b.maxY, e.id⟩] }
  | none => st'

/-- Source `removeEntity` from `store.js`: if the id is present, remove its index
record (if any), remove it from the entity map and from the selection set;
otherwise do nothing. -/
def removeEntity (id : String) (st : Store) : Store :=
  if (mapLookup id st.entities).isSome then
    { st with
        index := removeFirstRecord id st.index
        entities := mapDelete id st.entities
        selection := setDelete id st.selection }
  else st

/-- Source `queryByBounds` from `store.js`: ids of the index records intersecting the
query box. -/
def queryByBounds (b : Bounds) (st : Store) : List String :=
  (search b st.index).map (·.entityId)

/-- Source `queryEntities` from `store.js`: the intersecting records mapped through
the entity map, dropping records whose entity no longer exists
(`.map(item => entities.get(item.entityId)).filter(entity => entity)`). -/
def queryEntities (b : Bounds) (st : Store) : List Entity :=
  (search b st.index).filterMap fun r => mapLookup r.entityId st.entities

/-- The viewport collaborator (`useViewport.js`): a uniform scale plus offset. -/
structure Viewport where
  scale : ℝ
  offset : Point

/-- Source `toWorld` from `useViewport.js`. -/
def toWorld (vp : Viewport) (p : Point) : Point :=
  ⟨(p.x - vp.offset.x) / vp.scale, (p.y - vp.offset.y) / vp.scale⟩

/-- Source `toScreen` from `useViewport.js`. -/
def toScreen (vp : Viewport) (w : Point) : Point :=
  ⟨w.x * vp.scale + vp.offset.x, w.y * vp.scale + vp.offset.y⟩

/-- The `visual` hint attached to a snap candidate. -/
structure SnapVisual where
  type : String
  size : ℝ

/-- A snap candidate `{point, type, entity, visual}` as produced by the engine. -/
structure Candidate where
  point : Point
  type : String
  entity : String
  visual : SnapVisual

/-- Source `Arc.getStartPoint` (`Arc.js`). -/
def arcGetStartPoint (center : Point) (radius startAngle : ℝ) : Point :=
  ⟨center.x + radius * Real.cos startAngle, center.y + radius * Real.sin startAngle⟩

/-- Source `Arc.getEndPoint` (`Arc.js`). -/
def arcGetEndPoint (center : Point) (radius endAngle : ℝ) : Point :=
  ⟨center.x + radius * Real.cos endAngle, center.y + radius * Real.sin endAngle⟩

/-- Source `Arc.getAngleSpan` (`Arc.js`): the counter-clockwise span, wrapping through
zero when `endAngle < startAngle`. -/
def arcGetAngleSpan (startAngle endAngle : ℝ) : ℝ :=
  let span := endAngle - startAngle
  if span < 0 then span + 2 * Real.pi else span

/-- Source `Arc.getMidPoint` (`Arc.js`): the point at the angular bisector. -/
def arcGetMidPoint (center : Point) (radius startAngle endAngle : ℝ) : Point :=
  let midAngle := startAngle + arcGetAngleSpan startAngle endAngle / 2
  ⟨center.x + radius * Real.cos midAngle, center.y + radius * Real.sin midAngle⟩

/-- The source's `normalizeAngle` helper inside `Arc.containsAngle`: two `while`
loops that add or subtract `2π` until the angle lies in `[0, 2π)`.  The loops
compute exactly the remainder of the angle modulo `2π`, which is the closed
form used here. -/
def normalizeAngle (a : ℝ) : ℝ :=
  a - 2 * Real.pi * ⌊a / (2 * Real.pi)⌋

/-- Source `Arc.containsAngle` (`Arc.js`): whether an angle lies within the arc's
counter-clockwise span, after normalizing all three angles to `[0, 2π)`. -/
def containsAngle (startAngle endAngle angle : ℝ) : Prop :=
  let normStart := normalizeAngle startAngle
  let normEnd := normalizeAngle endAngle
  let normAngle := normalizeAngle angle
  if normStart ≤ normEnd then
    normStart ≤ normAngle ∧ normAngle ≤ normEnd
  else
    normStart ≤ normAngle ∨ normAngle ≤ normEnd

instance (startAngle endAngle angle : ℝ) :
    Decidable (containsAngle startAngle endAngle angle) := by
  unfold containsAngle
  exact instDecidableDite

/-- Source `Arc.getBounds` (`Arc.js`): true swept bounds, starting from the start and
end points and widening by each axis-aligned extremum angle (`0`, `π/2`, `π`,
`3π/2`) that the swept range contains.  The source's `for` loop over the four
angles is a fold. -/
def arcGetBounds (center : Point) (radius startAngle endAngle : ℝ) : Bounds :=
  let startPoint := arcGetStartPoint center radius startAngle
  let endPoint := arcGetEndPoint center radius endAngle
  let init : Bounds :=
    ⟨min startPoint.x endPoint.x, min startPoint.y endPoint.y,
     max startPoint.x endPoint.x, max startPoint.y endPoint.y⟩
  [0, Real.pi / 2, Real.pi, 3 * Real.pi / 2].foldl
    (fun b angle =>
      if containsAngle startAngle endAngle angle then
        let x := center.x + radius * Real.cos angle
        let y := center.y + radius * Real.sin angle
        ⟨min b.minX x, min b.minY y, max b.maxX x, max b.maxY y⟩
      else b)
    init

/-- A JavaScript runtime error thrown while generating snap candidates.  The
entities the snap engine sees come from `store.queryEntities`, and the store
holds method-stripped plain objects (`addEntity` spreads with `{...entity, id}`,
losing class prototype methods), so a method call such as
`entity.getStartPoint()` on such an object throws a `TypeError`. -/
inductive JsError where
  | typeError (message : String)

/-- Source `SnapEngine.getEndpoints`: defining vertices of an entity.  For arcs
the source calls `entity.getStartPoint()`/`entity.getEndPoint()`; entities
reaching the engine are the store's method-stripped plain objects, so that
call throws a `TypeError` (the Arc class methods themselves are embedded as
`arcGetStartPoint`/`arcGetEndPoint` above, but they are never reached here). -/
def getEndpoints (e : Entity) : Except JsError (List Candidate) :=
  match e.geo with
  | .line s e_ =>
      .ok [⟨s, "endpoint", e.id, ⟨"square", 8⟩⟩, ⟨e_, "endpoint", e.id, ⟨"square", 8⟩⟩]
  | .arc _ _ _ _ =>
      .error (.typeError "entity.getStartPoint is not a function")
  | .polyline vs => .ok (vs.map fun v => ⟨v, "endpoint", e.id, ⟨"square", 8⟩⟩)
  | _ => .ok []

/-- Source `SnapEngine.getMidpoints`: segment midpoints.  For arcs the source
calls `entity.getMidPoint()`, which throws a `TypeError` on the store's
method-stripped plain objects. -/
def getMidpoints (e : Entity) : Except JsError (List Candidate) :=
  match e.geo with
  | .line s e_ =>
      .ok [⟨⟨(s.x + e_.x) / 2, (s.y + e_.y) / 2⟩, "midpoint", e.id, ⟨"triangle", 8⟩⟩]
  | .arc _ _ _ _ =>
      .error (.typeError "entity.getMidPoint is not a function")
  | .polyline vs =>
      .ok ((vs.zip vs.tail).map fun p =>
        ⟨⟨(p.1.x + p.2.x) / 2, (p.1.y + p.2.y) / 2⟩, "midpoint", e.id, ⟨"triangle", 8⟩⟩)
  | _ => .ok []

/-- Source `SnapEngine.getCenters`: circle/arc centers (plain field accesses)
and, for rectangles, `entity.getCenter()` — the `Rectangle` class in
`Dimension.js` defines it as the corner midpoint, but the store's
method-stripped plain objects lack it, so the call throws a `TypeError`. -/
def getCenters (e : Entity) : Except JsError (List Candidate) :=
  match e.geo with
  | .circle c _ => .ok [⟨c, "center", e.id, ⟨"circle", 10⟩⟩]
  | .arc c _ _ _ => .ok [⟨c, "center", e.id, ⟨"circle", 10⟩⟩]
  | .rectangle _ _ =>
      .error (.typeError "entity.getCenter is not a function")
  | _ => .ok []

/-- Source `SnapEngine.nearestPointOnLine`: clamped projection onto the segment. -/
def nearestPointOnLine (start end_ point : Point) : Point :=
  let A := point.x - start.x
  let B := point.y - start.y
  let C := end_.x - start.x
  let D := end_.y - start.y
  let dot := A * C + B * D
  let lenSq := C * C + D * D
  if lenSq = 0 then start
  else
    let param := max 0 (min 1 (dot / lenSq))
    ⟨start.x + param * C, start.y + param * D⟩

/-- Source `SnapEngine.nearestPointOnCircle`: radial projection onto the circle. -/
def nearestPointOnCircle (center : Point) (radius : ℝ) (point : Point) : Point :=
  let dx := point.x - center.x
  let dy := point.y - center.y
  let distance := Real.sqrt (dx * dx + dy * dy)
  if distance = 0 then ⟨center.x + radius, center.y⟩
  else ⟨center.x + dx * (radius / distance), center.y + dy * (radius / distance)⟩

/-- Source `SnapEngine.getNearestPoints`: closest point on the entity's curve to the
raw world pointer. -/
def getNearestPoints (e : Entity) (worldPos : Point) : List Candidate :=
  match e.geo with
  | .line s e_ =>
      [⟨nearestPointOnLine s e_ worldPos, "nearest", e.id, ⟨"x", 6⟩⟩]
  | .circle c r =>
      [⟨nearestPointOnCircle c r worldPos, "nearest", e.id, ⟨"x", 6⟩⟩]
  | _ => []

/-- Source `SnapEngine.lineLineIntersection`: determinant method on the two segments
`(l1s, l1e)` and `(l2s, l2e)` (the source passes the line entities and reads
their `start`/`end` fields). -/
def lineLineIntersection (l1s l1e l2s l2e : Point) : List Point :=
  let x1 := l1s.x; let y1 := l1s.y
  let x2 := l1e.x; let y2 := l1e.y
  let x3 := l2s.x; let y3 := l2s.y
  let x4 := l2e.x; let y4 := l2e.y
  let denom := (x1 - x2) * (y3 - y4) - (y1 - y2) * (x3 - x4)
  if |denom| < 1e-10 then []
  else
    let t := ((x1 - x3) * (y3 - y4) - (y1 - y3) * (x3 - x4)) / denom
    let u := -((x1 - x2) * (y1 - y3) - (y1 - y2) * (x1 - x3)) / denom
    if 0 ≤ t ∧ t ≤ 1 ∧ 0 ≤ u ∧ u ≤ 1 then
      [⟨x1 + t * (x2 - x1), y1 + t * (y2 - y1)⟩]
    else []

/-- Source `SnapEngine.circleLineIntersection`: quadratic in the line parameter,
keeping roots in `[0, 1]` and deduplicating roots closer than `1e-10`. -/
def circleLineIntersection (center : Point) (r : ℝ) (ls le : Point) : List Point :=
  let dx := le.x - ls.x
  let dy := le.y - ls.y
  let fx := ls.x - center.x
  let fy := ls.y - center.y
  let a := dx * dx + dy * dy
  let b := 2 * (fx * dx + fy * dy)
  let c := fx * fx + fy * fy - r * r
  let discriminant := b * b - 4 * a * c
  if discriminant < 0 then []
  else
    let sqrtDisc := Real.sqrt discriminant
    let t1 := (-b - sqrtDisc) / (2 * a)
    let t2 := (-b + sqrtDisc) / (2 * a)
    (if 0 ≤ t1 ∧ t1 ≤ 1 then [(⟨ls.x + t1 * dx, ls.y + t1 * dy⟩ : Point)] else []) ++
    (if (0 ≤ t2 ∧ t2 ≤ 1) ∧ |t2 - t1| > 1e-10 then
      [(⟨ls.x + t2 * dx, ls.y + t2 * dy⟩ : Point)] else [])

/-- Source `SnapEngine.circleCircleIntersection`: classic two-circle intersection. -/
def circleCircleIntersection (center1 : Point) (r1 : ℝ) (center2 : Point) (r2 : ℝ) :
    List Point :=
  let x1 := center1.x; let y1 := center1.y
  let x2 := center2.x; let y2 := center2.y
  let d := Real.sqrt ((x2 - x1) * (x2 - x1) + (y2 - y1) * (y2 - y1))
  if d > r1 + r2 ∨ d < |r1 - r2| ∨ d = 0 then []
  else if d = r1 + r2 ∨ d = |r1 - r2| then
    [⟨x1 + (r1 / d) * (x2 - x1), y1 + (r1 / d) * (y2 - y1)⟩]
  else
    let a := (r1 * r1 - r2 * r2 + d * d) / (2 * d)
    let h := Real.sqrt (r1 * r1 - a * a)
    let px := x1 + a * (x2 - x1) / d
    let py := y1 + a * (y2 - y1) / d
    [⟨px + h * (y2 - y1) / d, py - h * (x2 - x1) / d⟩,
     ⟨px - h * (y2 - y1) / d, py + h * (x2 - x1) / d⟩]

/-- Source `SnapEngine.findIntersection`: dispatch on the two entity kinds. -/
def findIntersection (e1 e2 : Entity) : List Point :=
  match e1.geo, e2.geo with
  | .line s1 f1, .line s2 f2 => lineLineIntersection s1 f1 s2 f2
  | .circle c r, .line s f => circleLineIntersection c r s f
  | .line s f, .circle c r => circleLineIntersection c r s f
  | .circle c1 r1, .circle c2 r2 => circleCircleIntersection c1 r1 c2 r2
  | _, _ => []

/-- The unordered pairs `i < j` visited by `getIntersections`' nested loop. -/
def allPairs {α : Type} : List α → List (α × α)
  | [] => []
  | x :: xs => (xs.map fun y => (x, y)) ++ allPairs xs

/-- The screen-pixel snap tolerance set in the `SnapEngine` constructor. -/
def snapTolerance : ℝ := 10

/-- Source `SnapEngine.getIntersections`: intersect every unordered pair of nearby
entities, keeping intersection points within 50 world units of the pointer. -/
def getIntersections (entities : List Entity) (worldPos : Point) : List Candidate :=
  (allPairs entities).flatMap fun p =>
    (findIntersection p.1 p.2).filterMap fun ipt =>
      if Real.sqrt ((ipt.x - worldPos.x) ^ 2 + (ipt.y - worldPos.y) ^ 2) < 50 then
        some ⟨ipt, "intersection", p.1.id ++ "_" ++ p.2.id, ⟨"cross", 10⟩⟩
      else none

/-- Source `SnapEngine.getNearbyEntities`: query the store for entities whose box
intersects a square window of world-space tolerance `snapTolerance / scale`
centered on the world pointer. -/
def getNearbyEntities (st : Store) (worldPos : Point) (vp : Viewport) : List Entity :=
  let tolerance := snapTolerance / vp.scale
  queryEntities
    ⟨worldPos.x - tolerance, worldPos.y - tolerance,
     worldPos.x + tolerance, worldPos.y + tolerance⟩ st

/-- One iteration of `findSnapPoint`'s entity loop: the enabled snap kinds in
source order (endpoint, midpoint, center, nearest); a thrown `TypeError`
aborts the whole loop, which the `Except` sequencing models. -/
def entityCandidates (st : Store) (worldPos : Point) (e : Entity) :
    Except JsError (List Candidate) :=
  match (if st.snap.endpoint then getEndpoints e else .ok []) with
  | .error err => .error err
  | .ok endpointCands =>
      match (if st.snap.midpoint then getMidpoints e else .ok []) with
      | .error err => .error err
      | .ok midpointCands =>
          match (if st.snap.center then getCenters e else .ok []) with
          | .error err => .error err
          | .ok centerCands =>
              .ok (endpointCands ++ midpointCands ++ centerCands ++
                (if st.snap.nearest then getNearestPoints e worldPos else []))

/-- Source `findSnapPoint`'s `for` loop over the nearby entities, pushing each
entity's candidates in order; the first thrown `TypeError` aborts it. -/
def collectCandidates (st : Store) (worldPos : Point) :
    List Entity → Except JsError (List Candidate)
  | [] => .ok []
  | e :: rest =>
      match entityCandidates st worldPos e with
      | .error err => .error err
      | .ok cs =>
          match collectCandidates st worldPos rest with
          | .error err => .error err
          | .ok restCands => .ok (cs ++ restCands)

/-- The candidate list accumulated by `findSnapPoint` before selection: per
nearby entity the enabled snap kinds in source order, then the pairwise
intersections — or the first `TypeError` thrown while generating. -/
def snapCandidates (st : Store) (mousePos : Point) (vp : Viewport) :
    Except JsError (List Candidate) :=
  let worldPos := toWorld vp mousePos
  let nearbyEntities := getNearbyEntities st worldPos vp
  match collectCandidates st worldPos nearbyEntities with
  | .error err => .error err
  | .ok cands =>
      .ok (cands ++
        (if st.snap.intersection then getIntersections nearbyEntities worldPos else []))

/-- Euclidean screen distance of a candidate to the raw pointer, as computed in
`findSnapPoint`'s selection loop. -/
def screenDist (vp : Viewport) (mousePos : Point) (c : Candidate) : ℝ :=
  let screenPoint := toScreen vp c.point
  Real.sqrt ((screenPoint.x - mousePos.x) ^ 2 + (screenPoint.y - mousePos.y) ^ 2)

/-- One step of `findSnapPoint`'s selection loop.  The source tracks
`bestSnap = null` with `minDistance = Infinity`; the accumulator pairs the best
candidate with its distance, `none` standing for the initial
`null`/`Infinity` state (an absent best and a distance every real is below). -/
def snapStep (vp : Viewport) (mousePos : Point) (acc : Option (Candidate × ℝ))
    (c : Candidate) : Option (Candidate × ℝ) :=
  let d := screenDist vp mousePos c
  match acc with
  | none => if d < snapTolerance then some (c, d) else none
  | some (b, m) => if d < snapTolerance ∧ d < m then some (c, d) else some (b, m)

/-- Source `SnapEngine.findSnapPoint`: `null` when snapping is disabled,
otherwise the closest candidate within the screen tolerance — or the
propagated `TypeError` when candidate generation throws.  The function reads
only the store's `snap` settings; it does not consult `currentCommand`. -/
def findSnapPoint (st : Store) (mousePos : Point) (vp : Viewport) :
    Except JsError (Option Candidate) :=
  if st.snap.enabled = false then .ok none
  else
    match snapCandidates st mousePos vp with
    | .error err => .error err
    | .ok candidates =>
        .ok ((candidates.foldl (snapStep vp mousePos) none).map Prod.fst)

/-- Source `SnapEngine.applyOrtho`: lock the proposed point to the axis of dominant
motion; with no reference point return the proposed point unmodified. -/
def applyOrtho (fromPoint : Option Point) (toPoint : Point) : Point :=
  match fromPoint with
  | none => toPoint
  | some fp =>
      let dx := toPoint.x - fp.x
      let dy := toPoint.y - fp.y
      if |dx| > |dy| then ⟨toPoint.x, fp.y⟩
      else ⟨fp.x, toPoint.y⟩

/-- A command's resolved result as read by the bus: the `completed` flag and
the optional `undo`/`redo` closures acting on the document store.  Commands
attach further fields (`entities`, `message`) that the bus never reads. -/
structure CmdResult where
  completed : Bool
  undo : Option (Store → Store) := none
  redo : Option (Store → Store) := none

/-- One history entry `{command, args, result, timestamp}`; the `args` object
is modelled as a key–value list. -/
structure HistoryEntry where
  command : String
  args : List (String × String) := []
  result : CmdResult
  timestamp : Nat := 0

/-- The command bus state (`commandBus.js`), parametric in the type `C` of
registered command classes: the registry map, the linear history with its
cursor (initially `-1`), and the active-command slot. -/
structure CommandBus (C : Type) where
  commands : List (String × C) := []
  history : List HistoryEntry := []
  historyIndex : Int := -1
  currentCommand : Option C := none

/-- Source `CommandBus.register`: store the class under the lowercased name. -/
def register {C : Type} (name : String) (commandClass : C) (bus : CommandBus C) :
    CommandBus C :=
  { bus with commands := mapSet name.toLower commandClass bus.commands }

/-- The error thrown by `CommandBus.run` for an unregistered name. -/
inductive RunError where
  | unknownCommand (name : String)

/-- Source `CommandBus.run`: look the class up under the lowercased name and throw
`UnknownCommand` before touching any state.  Everything after the successful
lookup (cancelling the active command, constructing and executing the new one,
appending to history, the `finally` clear) is abstracted as `proceed`, invoked
only when the lookup succeeds. -/
def run {C V : Type}
    (proceed : C → CommandBus C → Store → CommandBus C × Store × Except RunError V)
    (bus : CommandBus C) (st : Store) (commandName : String) :
    CommandBus C × Store × Except RunError V :=
  match mapLookup commandName.toLower bus.commands with
  | none => (bus, st, .error (.unknownCommand commandName))
  | some commandClass => proceed commandClass bus st

/-- Source `CommandBus.addToHistory`: drop every entry beyond the cursor
(`slice(0, historyIndex + 1)`), push the new entry, and point the cursor at
it. -/
def addToHistory {C : Type} (bus : CommandBus C) (commandName : String)
    (args : List (String × String)) (result : CmdResult) (timestamp : Nat) :
    CommandBus C :=
  let truncated := bus.history.take (bus.historyIndex + 1).toNat
  let newHistory := truncated ++ [⟨commandName, args, result, timestamp⟩]
  { bus with history := newHistory, historyIndex := (newHistory.length : Int) - 1 }

/-- Invoke an optional stored closure on the store
(`if (historyItem.result.undo) await historyItem.result.undo()`). -/
def applyClosure (f : Option (Store → Store)) (st : Store) : Store :=
  match f with
  | some g => g st
  | none => st

/-- Source `CommandBus.undo`: no-op returning `false` at cursor `-1`; otherwise invoke
the entry under the cursor's `undo` closure and move the cursor down.  The
inner `none` branch is unreachable under the cursor invariant
`historyIndex < history.length` (there the source would fault reading
`.result` of `undefined`). -/
def undo {C : Type} (bus : CommandBus C) (st : Store) : CommandBus C × Store × Bool :=
  if 0 ≤ bus.historyIndex then
    match bus.history.get? bus.historyIndex.toNat with
    | some historyItem =>
        ({ bus with historyIndex := bus.historyIndex - 1 },
         applyClosure historyItem.result.undo st, true)
    | none => ({ bus with historyIndex := bus.historyIndex - 1 }, st, true)
  else (bus, st, false)

/-- Source `CommandBus.redo`: no-op returning `false` at the end of history; otherwise
move the cursor up and invoke the entry now under the cursor's `redo`
closure.  The inner `none` branch is unreachable as in `undo`. -/
def redo {C : Type} (bus : CommandBus C) (st : Store) : CommandBus C × Store × Bool :=
  if bus.historyIndex < (bus.history.length : Int) - 1 then
    let newIndex := bus.historyIndex + 1
    match bus.history.get? newIndex.toNat with
    | some historyItem =>
        ({ bus with historyIndex := newIndex },
         applyClosure historyItem.result.redo st, true)
    | none => ({ bus with historyIndex := newIndex }, st, true)
  else (bus, st, false)

/-- Source `MoveCommand.moveEntity`: translate the geometry by the offset, keeping
every other field (including the id).  Entities read back from the store are
plain objects without class methods, so the source's `entity.move` branch
never applies and the per-kind fallback switch is the behaviour. -/
def moveEntity (e : Entity) (offset : Point) : Entity :=
  { e with
      geo :=
        match e.geo with
        | .line s f =>
            .line ⟨s.x + offset.x, s.y + offset.y⟩ ⟨f.x + offset.x, f.y + offset.y⟩
        | .circle c r => .circle ⟨c.x + offset.x, c.y + offset.y⟩ r
        | .arc c r sa ea => .arc ⟨c.x + offset.x, c.y + offset.y⟩ r sa ea
        | .rectangle c1 c2 =>
            .rectangle ⟨c1.x + offset.x, c1.y + offset.y⟩ ⟨c2.x + offset.x, c2.y + offset.y⟩
        | .polyline vs => .polyline (vs.map fun v => ⟨v.x + offset.x, v.y + offset.y⟩) }

/-- Source `MoveCommand.clearPreviews`: remove every preview entity from the store. -/
def clearPreviews (previewEntities : List Entity) (st : Store) : Store :=
  previewEntities.foldl (fun s e => removeEntity e.id s) st

/-- Source `MoveCommand.commitMove`: clear previews, compute the offset from base to
target, then for each selected entity remove the original and add its
translated copy; resolve with a result carrying `undo`/`redo` closures that
invert/reapply exactly this (the closures act on the live store, modelled as
`Store → Store`). -/
def commitMove (selectedEntities previewEntities : List Entity)
    (basePoint targetPoint : Point) (st : Store) : Store × CmdResult :=
  let st0 := clearPreviews previewEntities st
  let offset : Point := ⟨targetPoint.x - basePoint.x, targetPoint.y - basePoint.y⟩
  let originalEntities := selectedEntities
  let movedEntities := selectedEntities.map (moveEntity · offset)
  let st1 := selectedEntities.foldl
    (fun s e => addEntity (moveEntity e offset) (removeEntity e.id s)) st0
  (st1,
   { completed := true
     undo := some fun s =>
       originalEntities.foldl (fun s' e => addEntity e s')
         (movedEntities.foldl (fun s' e => removeEntity e.id s') s)
     redo := some fun s =>
       movedEntities.foldl (fun s' e => addEntity e s')
         (originalEntities.foldl (fun s' e => removeEntity e.id s') s) })

/-! ## Concrete instances used by witnesses and counterexamples -/

/-- The identity viewport: scale `1`, offset `(0, 0)`. -/
def vpId : Viewport := ⟨1, ⟨0, 0⟩⟩

/-- A line entity from `(0, 0)` to `(5, 0)`. -/
def lineA : Entity := { id := "a", geo := .line ⟨0, 0⟩ ⟨5, 0⟩ }

/-- A degenerate (zero-length) line entity at the origin; the store accepts it
since geometry validation is deliberately absent from `addEntity`. -/
def lineZ : Entity := { id := "z", geo := .line ⟨0, 0⟩ ⟨0, 0⟩ }

/-- A store holding `lineA` with its index record, all snap settings on, no
active command. -/
def stA : Store := { entities := [("a", lineA)], index := [⟨0, 0, 5, 0, "a"⟩] }

/-- A store holding `lineZ` with its index record, all snap settings on, no
active command. -/
def stZ : Store := { entities := [("z", lineZ)], index := [⟨0, 0, 0, 0, "z"⟩] }

/-- A store with snapping globally disabled. -/
def stOff : Store := { snap := { enabled := false } }

/-- A quarter arc: center `(0, 0)`, radius `1`, swept counter-clockwise from
angle `0` to `π/2`. -/
def arcQ : Entity := { id := "q", geo := .arc ⟨0, 0⟩ 1 0 (Real.pi / 2) }

/-- A command bus whose history holds one completed entry with undo/redo
closures, cursor on that entry. -/
def busMove : CommandBus Unit :=
  { history :=
      [{ command := "move",
         result :=
           { completed := true
             undo := some (removeEntity "m")
             redo := some (removeEntity "r") } }]
    historyIndex := 0 }

end

/-! ## Theorems -/

/-- C9: `applyOrtho` locks the proposed point to the axis whose coordinate
delta from the reference point is larger in magnitude, keeping that coordinate
and replacing the other with the reference's; with no reference point it
returns the proposed point unmodified; in particular
`applyOrtho((0,0),(7,2)) = (7,0)` and `applyOrtho((0,0),(2,7)) = (0,7)`. -/
theorem applyOrtho_spec :
    (∀ p : Point, applyOrtho none p = p) ∧
    (∀ fp p : Point, |p.x - fp.x| > |p.y - fp.y| →
      applyOrtho (some fp) p = ⟨p.x, fp.y⟩) ∧
    (∀ fp p : Point, ¬ |p.x - fp.x| > |p.y - fp.y| →
      applyOrtho (some fp) p = ⟨fp.x, p.y⟩) ∧
    applyOrtho (some ⟨0, 0⟩) ⟨7, 2⟩ = ⟨7, 0⟩ ∧
    applyOrtho (some ⟨0, 0⟩) ⟨2, 7⟩ = ⟨0, 7⟩ := by
  refine ⟨fun p => rfl, fun fp p h => ?_, fun fp p h => ?_, ?_, ?_⟩
  · simp only [applyOrtho]
    rw [if_pos h]
  · simp only [applyOrtho]
    rw [if_neg h]
  · simp only [applyOrtho]
    norm_num
  · simp only [applyOrtho]
    norm_num

/-- Witness for C9: horizontal lock at a concrete dominant-x input. -/
theorem applyOrtho_spec_witness :
    applyOrtho (some ⟨0, 0⟩) ⟨3, 1⟩ = ⟨3, 0⟩ :=
  applyOrtho_spec.2.1 ⟨0, 0⟩ ⟨3, 1⟩ (by norm_num)

/-- C6: `run` with a name that is not registered (case-insensitively) fails
with the `UnknownCommand` error and performs no state mutation: the document
store, the history, the registry and the active-command slot are all returned
unchanged, and the active command is not cancelled. -/
theorem run_unknownCommand {C V : Type}
    (proceed : C → CommandBus C → Store → CommandBus C × Store × Except RunError V)
    (bus : CommandBus C) (st : Store) (name : String)
    (h : mapLookup name.toLower bus.commands = none) :
    run proceed bus st name = (bus, st, .error (.unknownCommand name)) := by
  simp only [run, h]

/-- Witness for C6: running `"Circle"` against a bus with an empty registry
surfaces `UnknownCommand` and changes nothing. -/
theorem run_unknownCommand_witness :
    run (fun (_ : Unit) (b : CommandBus Unit) (s : Store) =>
          (b, s, (Except.ok 0 : Except RunError Nat)))
        {} {} "Circle"
      = ({}, {}, .error (.unknownCommand "Circle")) :=
  run_unknownCommand _ _ _ _ rfl

/-- C5: `undo` at cursor `-1` and `redo` at the end of history are no-ops
returning `false`; otherwise `undo`/`redo` move the cursor by one and invoke
the traversed entry's stored closure; and `addToHistory` (called when a
command completes) truncates every history entry beyond the cursor before
appending the new entry and pointing the cursor at it. -/
theorem commandBus_history_spec {C : Type} (bus : CommandBus C) (st : Store) :
    (bus.historyIndex = -1 → undo bus st = (bus, st, false)) ∧
    (bus.historyIndex = (bus.history.length : Int) - 1 → redo bus st = (bus, st, false)) ∧
    (∀ item, 0 ≤ bus.historyIndex →
      bus.history.get? bus.historyIndex.toNat = some item →
      undo bus st = ({ bus with historyIndex := bus.historyIndex - 1 },
                     applyClosure item.result.undo st, true)) ∧
    (∀ item, bus.historyIndex < (bus.history.length : Int) - 1 →
      bus.history.get? (bus.historyIndex + 1).toNat = some item →
      redo bus st = ({ bus with historyIndex := bus.historyIndex + 1 },
                     applyClosure item.result.redo st, true)) ∧
    (∀ name args result t,
      (addToHistory bus name args result t).history
        = bus.history.take (bus.historyIndex + 1).toNat ++ [⟨name, args, result, t⟩] ∧
      (addToHistory bus name args result t).historyIndex
        = ((bus.history.take (bus.historyIndex + 1).toNat).length : Int)) := by
  refine ⟨fun h => ?_, fun h => ?_, fun item h0 hget => ?_, fun item h hget => ?_,
    fun name args result t => ⟨rfl, ?_⟩⟩
  · unfold undo
    rw [if_neg (by rw [h]; decide)]
  · unfold redo
    rw [if_neg (by rw [h]; exact lt_irrefl _)]
  · unfold undo
    rw [if_pos h0, hget]
  · unfold redo
    rw [if_pos h]
    dsimp only
    rw [hget]
  · simp only [addToHistory, List.length_append, List.length_singleton]
    push_cast
    ring

/-- Witness for C5: on a concrete one-entry bus, `undo` at cursor `0` invokes
the stored closure and moves to `-1`, where a second `undo` is a no-op
returning `false`. -/
theorem commandBus_history_spec_witness :
    undo busMove {}
      = ({ busMove with historyIndex := busMove.historyIndex - 1 },
         applyClosure (some (removeEntity "m")) {}, true) ∧
    undo { busMove with historyIndex := -1 } {}
      = ({ busMove with historyIndex := -1 }, ({} : Store), false) :=
  ⟨(commandBus_history_spec busMove {}).2.2.1
      ⟨"move", [], ⟨true, some (removeEntity "m"), some (removeEntity "r")⟩, 0⟩
      (by decide) rfl,
   (commandBus_history_spec { busMove with historyIndex := -1 } {}).1 rfl⟩

/-- C7: line–line intersection returns no intersection when the determinant's
magnitude is below `1e-10` (parallel case), and otherwise returns the
intersection point exactly when both parametric values lie in `[0, 1]`; in
particular segments `(0,0)-(10,0)` and `(5,-5)-(5,5)` intersect exactly at
`(5, 0)`. -/
theorem lineLineIntersection_spec (l1s l1e l2s l2e : Point) (denom t u : ℝ)
    (hd : denom = (l1s.x - l1e.x) * (l2s.y - l2e.y) - (l1s.y - l1e.y) * (l2s.x - l2e.x))
    (ht : t = ((l1s.x - l2s.x) * (l2s.y - l2e.y) - (l1s.y - l2s.y) * (l2s.x - l2e.x)) / denom)
    (hu : u = -((l1s.x - l1e.x) * (l1s.y - l2s.y) - (l1s.y - l1e.y) * (l1s.x - l2s.x)) / denom) :
    (|denom| < 1e-10 → lineLineIntersection l1s l1e l2s l2e = []) ∧
    (¬ |denom| < 1e-10 →
      ((0 ≤ t ∧ t ≤ 1 ∧ 0 ≤ u ∧ u ≤ 1) →
        lineLineIntersection l1s l1e l2s l2e
          = [⟨l1s.x + t * (l1e.x - l1s.x), l1s.y + t * (l1e.y - l1s.y)⟩]) ∧
      (¬ (0 ≤ t ∧ t ≤ 1 ∧ 0 ≤ u ∧ u ≤ 1) →
        lineLineIntersection l1s l1e l2s l2e = [])) ∧
    lineLineIntersection ⟨0, 0⟩ ⟨10, 0⟩ ⟨5, -5⟩ ⟨5, 5⟩ = [⟨5, 0⟩] := by
  subst hd; subst ht; subst hu
  refine ⟨fun h => ?_, fun h => ⟨fun hc => ?_, fun hc => ?_⟩, ?_⟩
  · unfold lineLineIntersection
    rw [if_pos h]
  · unfold lineLineIntersection
    rw [if_neg h]
    dsimp only
    rw [if_pos hc]
  · unfold lineLineIntersection
    rw [if_neg h]
    dsimp only
    rw [if_neg hc]
  · unfold lineLineIntersection
    norm_num

/-- Witness for C7: two concrete parallel horizontal segments yield no
intersection through the parallel branch. -/
theorem lineLineIntersection_spec_witness :
    lineLineIntersection ⟨0, 0⟩ ⟨1, 0⟩ ⟨0, 1⟩ ⟨1, 1⟩ = [] :=
  (lineLineIntersection_spec ⟨0, 0⟩ ⟨1, 0⟩ ⟨0, 1⟩ ⟨1, 1⟩ 0 0 0
      (by norm_num) (by norm_num) (by norm_num)).1 (by norm_num)

/-- C8: circle–circle intersection returns no points when the center distance
exceeds the sum of radii, is less than the absolute difference of radii, or is
zero (concentric); returns exactly one point at tangency; and for unit circles
centered at `(0,0)` and `(1,0)` returns two points symmetric about `y = 0` at
`x = 0.5`. -/
theorem circleCircleIntersection_spec (c1 : Point) (r1 : ℝ) (c2 : Point) (r2 : ℝ) (d : ℝ)
    (hd : d = Real.sqrt ((c2.x - c1.x) * (c2.x - c1.x) + (c2.y - c1.y) * (c2.y - c1.y))) :
    (d > r1 + r2 ∨ d < |r1 - r2| ∨ d = 0 →
      circleCircleIntersection c1 r1 c2 r2 = []) ∧
    (0 < r1 → 0 < r2 → (d = r1 + r2 ∨ (d = |r1 - r2| ∧ d ≠ 0)) →
      (circleCircleIntersection c1 r1 c2 r2).length = 1) ∧
    (∃ y : ℝ, 0 < y ∧
      circleCircleIntersection ⟨0, 0⟩ 1 ⟨1, 0⟩ 1 = [⟨1/2, -y⟩, ⟨1/2, y⟩]) := by
  subst hd
  refine ⟨fun h => ?_, fun hr1 hr2 htan => ?_, ?_⟩
  · unfold circleCircleIntersection
    rw [if_pos h]
  · unfold circleCircleIntersection
    rw [if_neg ?hno, if_pos ?htan2]
    case hno =>
      rintro (h1 | h2 | h3)
      · rcases htan with heq | ⟨heq, _⟩
        · rw [heq] at h1; exact lt_irrefl _ h1
        · rcases abs_cases (r1 - r2) with ⟨he, _⟩ | ⟨he, _⟩ <;> linarith
      · rcases htan with heq | ⟨heq, _⟩
        · rcases abs_cases (r1 - r2) with ⟨he, _⟩ | ⟨he, _⟩ <;> linarith
        · rw [heq] at h2; exact lt_irrefl _ h2
      · rcases htan with heq | ⟨_, hne⟩
        · rw [h3] at heq; linarith
        · exact hne h3
    case htan2 =>
      rcases htan with heq | ⟨heq, _⟩
      · exact Or.inl heq
      · exact Or.inr heq
    rfl
  · refine ⟨Real.sqrt (3/4), Real.sqrt_pos.mpr (by norm_num), ?_⟩
    unfold circleCircleIntersection
    dsimp only
    rw [show ((⟨1, 0⟩ : Point).x - (⟨0, 0⟩ : Point).x) * ((⟨1, 0⟩ : Point).x - (⟨0, 0⟩ : Point).x)
          + ((⟨1, 0⟩ : Point).y - (⟨0, 0⟩ : Point).y) * ((⟨1, 0⟩ : Point).y - (⟨0, 0⟩ : Point).y)
          = 1 by norm_num, Real.sqrt_one]
    rw [if_neg (by norm_num), if_neg (by norm_num)]
    norm_num

/-- Witness for C8: two concrete unit circles with centers `10` apart are
separated, hence intersect in no points. -/
theorem circleCircleIntersection_spec_witness :
    circleCircleIntersection ⟨0, 0⟩ 1 ⟨10, 0⟩ 1 = [] :=
  (circleCircleIntersection_spec ⟨0, 0⟩ 1 ⟨10, 0⟩ 1 10
      (by rw [show ((⟨10, 0⟩ : Point).x - (⟨0, 0⟩ : Point).x) * ((⟨10, 0⟩ : Point).x - (⟨0, 0⟩ : Point).x)
              + ((⟨10, 0⟩ : Point).y - (⟨0, 0⟩ : Point).y) * ((⟨10, 0⟩ : Point).y - (⟨0, 0⟩ : Point).y)
              = 10 ^ 2 by norm_num, Real.sqrt_sq (by norm_num : (0:ℝ) ≤ 10)])).1
    (Or.inl (by norm_num))

/-! ### Helper lemmas about the store's map, set and index operations -/

theorem mapLookup_mapSet_self {α : Type} (k : String) (v : α) (l : List (String × α)) :
    mapLookup k (mapSet k v l) = some v := by
  induction l with
  | nil => simp [mapSet, mapLookup]
  | cons p rest ih =>
      obtain ⟨k', v'⟩ := p
      by_cases hk : k' = k
      · subst hk; simp [mapSet, mapLookup]
      · simp [mapSet, mapLookup, hk, ih]

theorem mapLookup_mapSet_ne {α : Type} (k i : String) (v : α) (l : List (String × α))
    (h : i ≠ k) : mapLookup i (mapSet k v l) = mapLookup i l := by
  induction l with
  | nil => simp [mapSet, mapLookup, Ne.symm h]
  | cons p rest ih =>
      obtain ⟨k', v'⟩ := p
      by_cases hk : k' = k
      · subst hk; simp [mapSet, mapLookup, Ne.symm h]
      · simp [mapSet, mapLookup, hk, ih]

theorem mapLookup_mapDelete_self {α : Type} (k : String) (l : List (String × α)) :
    mapLookup k (mapDelete k l) = none := by
  induction l with
  | nil => rfl
  | cons p rest ih =>
      obtain ⟨k', v'⟩ := p
      by_cases hk : k' = k
      · simp [mapDelete, hk, ih]
      · simp [mapDelete, mapLookup, hk, ih]

theorem mapLookup_mapDelete_ne {α : Type} (k i : String) (l : List (String × α))
    (h : i ≠ k) : mapLookup i (mapDelete k l) = mapLookup i l := by
  induction l with
  | nil => rfl
  | cons p rest ih =>
      obtain ⟨k', v'⟩ := p
      by_cases hk : k' = k
      · subst hk; simp [mapDelete, mapLookup, Ne.symm h, ih]
      · simp [mapDelete, mapLookup, hk, ih]

theorem setDelete_not_mem (k : String) (l : List String) : k ∉ setDelete k l := by
  induction l with
  | nil => simp [setDelete]
  | cons s rest ih =>
      by_cases hs : s = k
      · simpa [setDelete, hs] using ih
      · intro hmem
        rw [setDelete, if_neg hs] at hmem
        rcases List.mem_cons.mp hmem with h | h
        · exact hs h.symm
        · exact ih h

theorem addEntity_entities (e : Entity) (st : Store) :
    (addEntity e st).entities = mapSet e.id e st.entities := by
  unfold addEntity
  split <;> rfl

theorem addEntity_lookup_self (e : Entity) (st : Store) :
    mapLookup e.id (addEntity e st).entities = some e := by
  rw [addEntity_entities]; exact mapLookup_mapSet_self _ _ _

theorem addEntity_lookup_ne (e : Entity) (st : Store) (i : String) (h : i ≠ e.id) :
    mapLookup i (addEntity e st).entities = mapLookup i st.entities := by
  rw [addEntity_entities]; exact mapLookup_mapSet_ne _ _ _ _ h

theorem removeEntity_of_absent (id : String) (st : Store)
    (h : mapLookup id st.entities = none) : removeEntity id st = st := by
  simp [removeEntity, h]

theorem removeEntity_lookup_self (id : String) (st : Store) :
    mapLookup id (removeEntity id st).entities = none := by
  by_cases hx : (mapLookup id st.entities).isSome = true
  · rw [removeEntity, if_pos hx]; exact mapLookup_mapDelete_self _ _
  · rw [removeEntity, if_neg hx]
    exact Option.not_isSome_iff_eq_none.mp (by simpa using hx)

theorem removeEntity_lookup_ne (id : String) (st : Store) (i : String) (h : i ≠ id) :
    mapLookup i (removeEntity id st).entities = mapLookup i st.entities := by
  unfold removeEntity
  split
  · exact mapLookup_mapDelete_ne _ _ _ h
  · rfl

theorem countRecords_removeFirstRecord (id : String) (l : List IndexRecord) :
    countRecords id (removeFirstRecord id l) = countRecords id l - 1 := by
  induction l with
  | nil => rfl
  | cons r rs ih =>
      by_cases hr : r.entityId = id
      · simp only [removeFirstRecord, if_pos hr, countRecords, hr, if_true]
        omega
      · simp only [removeFirstRecord, if_neg hr, countRecords, hr, if_false, ih]
        omega

theorem countRecords_pos_of_mem (id : String) (r : IndexRecord) (l : List IndexRecord)
    (hr : r ∈ l) (hid : r.entityId = id) : 0 < countRecords id l := by
  induction l with
  | nil => cases hr
  | cons s rs ih =>
      rcases List.mem_cons.mp hr with h | h
      · subst h
        simp only [countRecords, hid, if_true]
        omega
      · have := ih h
        simp only [countRecords]
        omega

theorem mem_of_mem_search (b : Bounds) (idx : List IndexRecord) (r : IndexRecord)
    (h : r ∈ search b idx) : r ∈ idx :=
  (List.mem_filter.mp h).1

/-- C4: for an id present in the store, `removeEntity(id)` leaves no
spatial-index record behind — `queryByBounds` over the entity's former bounds
never returns the id (given the store's one-record-per-entity invariant) — and
removes the id from the selection set; `removeEntity` of an absent id changes
nothing. -/
theorem removeEntity_spec (st : Store) (id : String) :
    (mapLookup id st.entities = none → removeEntity id st = st) ∧
    (∀ e b, mapLookup id st.entities = some e → getEntityBounds e = some b →
      countRecords id st.index ≤ 1 →
      id ∉ queryByBounds b (removeEntity id st) ∧
      id ∉ (removeEntity id st).selection) := by
  refine ⟨fun h => removeEntity_of_absent id st h, fun e b he _ hcount => ?_⟩
  have hsome : (mapLookup id st.entities).isSome = true := by rw [he]; rfl
  have hrm : removeEntity id st =
      { st with
          index := removeFirstRecord id st.index
          entities := mapDelete id st.entities
          selection := setDelete id st.selection } := by
    rw [removeEntity, if_pos hsome]
  constructor
  · intro hmem
    rw [hrm] at hmem
    unfold queryByBounds at hmem
    obtain ⟨r, hr, hrid⟩ := List.mem_map.mp hmem
    have hrmem : r ∈ removeFirstRecord id st.index := mem_of_mem_search _ _ _ hr
    have h0 : countRecords id (removeFirstRecord id st.index) = 0 := by
      rw [countRecords_removeFirstRecord]; omega
    have hpos := countRecords_pos_of_mem id r _ hrmem hrid
    omega
  · intro hmem
    rw [hrm] at hmem
    exact setDelete_not_mem id st.selection hmem

/-- Witness for C4: removing the concrete line entity from its concrete store
leaves its id out of both the former-bounds query and the selection. -/
theorem removeEntity_spec_witness :
    "a" ∉ queryByBounds ⟨0, 0, 5, 0⟩ (removeEntity "a" stA) ∧
    "a" ∉ (removeEntity "a" stA).selection :=
  (removeEntity_spec stA "a").2 lineA ⟨0, 0, 5, 0⟩ rfl
    (by simp [getEntityBounds, lineA])
    (by decide)

/-- C10: every entity returned by `queryEntities` is present in the entity
collection — records whose id has no entry in the entity map are filtered
out, so the result never contains a deleted entity. -/
theorem queryEntities_sound (b : Bounds) (st : Store) :
    ∀ x ∈ queryEntities b st, ∃ id, mapLookup id st.entities = some x := by
  intro x hx
  obtain ⟨r, _, hr⟩ := List.mem_filterMap.mp hx
  exact ⟨r.entityId, hr⟩

/-- Witness for C10: a concrete query on the concrete store returns `lineA`,
which is indeed present in the entity map. -/
theorem queryEntities_sound_witness :
    ∃ id, mapLookup id stA.entities = some lineA :=
  queryEntities_sound ⟨-1, -1, 10, 10⟩ stA lineA
    (by
      have hrec : recordIntersects ⟨-1, -1, 10, 10⟩ ⟨0, 0, 5, 0, "a"⟩ := by
        unfold recordIntersects; norm_num
      simp [queryEntities, search, stA, List.filter_cons, hrec, mapLookup, lineA])

/-! ### Helper lemmas for the Move commit round trip -/

theorem clearPreviews_of_absent (l : List Entity) (st : Store)
    (h : ∀ p ∈ l, mapLookup p.id st.entities = none) : clearPreviews l st = st := by
  induction l with
  | nil => rfl
  | cons p ps ih =>
      unfold clearPreviews at ih ⊢
      rw [List.foldl_cons, removeEntity_of_absent p.id st (h p (List.mem_cons_self _ _))]
      exact ih fun q hq => h q (List.mem_cons_of_mem _ hq)

theorem foldl_addEntity_lookup_not_mem (l : List Entity) (s0 : Store) (i : String)
    (h : ∀ e ∈ l, e.id ≠ i) :
    mapLookup i (l.foldl (fun s x => addEntity x s) s0).entities = mapLookup i s0.entities := by
  induction l generalizing s0 with
  | nil => rfl
  | cons x xs ih =>
      rw [List.foldl_cons, ih _ fun e he => h e (List.mem_cons_of_mem _ he)]
      exact addEntity_lookup_ne x s0 i (Ne.symm (h x (List.mem_cons_self _ _)))

theorem foldl_removeEntity_lookup_not_mem (l : List Entity) (s0 : Store) (i : String)
    (h : ∀ e ∈ l, e.id ≠ i) :
    mapLookup i (l.foldl (fun s x => removeEntity x.id s) s0).entities
      = mapLookup i s0.entities := by
  induction l generalizing s0 with
  | nil => rfl
  | cons x xs ih =>
      rw [List.foldl_cons, ih _ fun e he => h e (List.mem_cons_of_mem _ he)]
      exact removeEntity_lookup_ne x.id s0 i (Ne.symm (h x (List.mem_cons_self _ _)))

theorem foldl_commitStep_lookup_not_mem (off : Point) (l : List Entity) (s0 : Store)
    (i : String) (h : ∀ e ∈ l, e.id ≠ i) :
    mapLookup i
        (l.foldl (fun s x => addEntity (moveEntity x off) (removeEntity x.id s)) s0).entities
      = mapLookup i s0.entities := by
  induction l generalizing s0 with
  | nil => rfl
  | cons x xs ih =>
      rw [List.foldl_cons, ih _ fun e he => h e (List.mem_cons_of_mem _ he)]
      rw [addEntity_lookup_ne (moveEntity x off) _ i
        (by exact Ne.symm (h x (List.mem_cons_self _ _)))]
      exact removeEntity_lookup_ne x.id s0 i (Ne.symm (h x (List.mem_cons_self _ _)))

theorem foldl_addEntity_lookup_mem (l : List Entity) (s0 : Store) (e : Entity) (i : String)
    (he : e ∈ l) (hi : e.id = i) (hnd : (l.map Entity.id).Nodup) :
    mapLookup i (l.foldl (fun s x => addEntity x s) s0).entities = some e := by
  subst hi
  induction l generalizing s0 with
  | nil => cases he
  | cons x xs ih =>
      rw [List.foldl_cons]
      rcases List.mem_cons.mp he with h | h
      · subst h
        have hx : ∀ y ∈ xs, y.id ≠ e.id := by
          intro y hy hEq
          exact (List.nodup_cons.mp hnd).1 (hEq ▸ List.mem_map_of_mem Entity.id hy)
        rw [foldl_addEntity_lookup_not_mem xs _ e.id hx]
        exact addEntity_lookup_self e s0
      · exact ih _ h (List.nodup_cons.mp hnd).2

theorem foldl_commitStep_lookup_mem (off : Point) (l : List Entity) (s0 : Store)
    (e : Entity) (i : String) (he : e ∈ l) (hi : e.id = i)
    (hnd : (l.map Entity.id).Nodup) :
    mapLookup i
        (l.foldl (fun s x => addEntity (moveEntity x off) (removeEntity x.id s)) s0).entities
      = some (moveEntity e off) := by
  subst hi
  induction l generalizing s0 with
  | nil => cases he
  | cons x xs ih =>
      rw [List.foldl_cons]
      rcases List.mem_cons.mp he with h | h
      · subst h
        have hx : ∀ y ∈ xs, y.id ≠ e.id := by
          intro y hy hEq
          exact (List.nodup_cons.mp hnd).1 (hEq ▸ List.mem_map_of_mem Entity.id hy)
        rw [foldl_commitStep_lookup_not_mem off xs _ e.id hx]
        exact addEntity_lookup_self (moveEntity e off) _
      · exact ih _ h (List.nodup_cons.mp hnd).2

/-- C3: for a non-empty selection of entities present in the store (with
distinct ids, as selections drawn from the entity map always have) and any
base/target points, a Move commit followed by its returned `undo` closure
restores the exact pre-move entity map (same identities, same geometry), and
`undo` followed by the returned `redo` closure restores the exact post-move
entity map.  The previews pending at commit are cleared first; at the commit
points the claim speaks about they are already retracted from the store. -/
theorem commitMove_roundTrip (selected previews : List Entity) (base target : Point)
    (st : Store)
    (hsel : selected ≠ [])
    (hnd : (selected.map Entity.id).Nodup)
    (hpresent : ∀ e ∈ selected, mapLookup e.id st.entities = some e)
    (hprev : ∀ p ∈ previews, mapLookup p.id st.entities = none) :
    (∀ i, mapLookup i
        (applyClosure (commitMove selected previews base target st).2.undo
          (commitMove selected previews base target st).1).entities
      = mapLookup i st.entities) ∧
    (∀ i, mapLookup i
        (applyClosure (commitMove selected previews base target st).2.redo
          (applyClosure (commitMove selected previews base target st).2.undo
            (commitMove selected previews base target st).1)).entities
      = mapLookup i (commitMove selected previews base target st).1.entities) := by
  have hclear : clearPreviews previews st = st := clearPreviews_of_absent _ _ hprev
  have hcm : commitMove selected previews base target st
      = (selected.foldl
          (fun s e => addEntity (moveEntity e ⟨target.x - base.x, target.y - base.y⟩)
            (removeEntity e.id s)) st,
         { completed := true
           undo := some fun s =>
             selected.foldl (fun s' e => addEntity e s')
               ((selected.map (fun e =>
                   moveEntity e ⟨target.x - base.x, target.y - base.y⟩)).foldl
                 (fun s' e => removeEntity e.id s') s)
           redo := some fun s =>
             (selected.map (fun e =>
                 moveEntity e ⟨target.x - base.x, target.y - base.y⟩)).foldl
               (fun s' e => addEntity e s')
               (selected.foldl (fun s' e => removeEntity e.id s') s) }) := by
    simp only [commitMove]
    rw [hclear]
  rw [hcm]
  simp only [applyClosure]
  have hmv : ∀ i, (¬ ∃ e ∈ selected, e.id = i) →
      ∀ m ∈ selected.map (fun e =>
          moveEntity e ⟨target.x - base.x, target.y - base.y⟩), m.id ≠ i := by
    intro i hmem m hm
    obtain ⟨e, he, rfl⟩ := List.mem_map.mp hm
    push_neg at hmem
    exact hmem e he
  have hndmv : ((selected.map (fun e =>
      moveEntity e ⟨target.x - base.x, target.y - base.y⟩)).map Entity.id).Nodup := by
    rw [List.map_map]
    exact hnd
  constructor
  · intro i
    by_cases hmem : ∃ e ∈ selected, e.id = i
    · obtain ⟨e, he, hid⟩ := hmem
      rw [foldl_addEntity_lookup_mem selected _ e i he hid hnd, ← hid, hpresent e he]
    · push_neg at hmem
      rw [foldl_addEntity_lookup_not_mem selected _ i hmem,
        foldl_removeEntity_lookup_not_mem _ _ i
          (hmv i (by push_neg; exact hmem)),
        foldl_commitStep_lookup_not_mem _ selected st i hmem]
  · intro i
    by_cases hmem : ∃ e ∈ selected, e.id = i
    · obtain ⟨e, he, hid⟩ := hmem
      rw [foldl_addEntity_lookup_mem
          (selected.map (fun e => moveEntity e ⟨target.x - base.x, target.y - base.y⟩)) _
          (moveEntity e ⟨target.x - base.x, target.y - base.y⟩) i
          (List.mem_map_of_mem
            (fun e => moveEntity e ⟨target.x - base.x, target.y - base.y⟩) he)
          hid hndmv,
        foldl_commitStep_lookup_mem _ selected st e i he hid hnd]
    · push_neg at hmem
      rw [foldl_addEntity_lookup_not_mem
          (selected.map (fun e => moveEntity e ⟨target.x - base.x, target.y - base.y⟩)) _ i
          (hmv i (by push_neg; exact hmem)),
        foldl_removeEntity_lookup_not_mem selected _ i hmem,
        foldl_addEntity_lookup_not_mem selected _ i hmem,
        foldl_removeEntity_lookup_not_mem
          (selected.map (fun e => moveEntity e ⟨target.x - base.x, target.y - base.y⟩)) _ i
          (hmv i (by push_neg; exact hmem))]

/-- Witness for C3: committing a Move of the concrete line entity and running
the returned closures round-trips its store entry. -/
theorem commitMove_roundTrip_witness :
    mapLookup "a"
        (applyClosure (commitMove [lineA] [] ⟨0, 0⟩ ⟨1, 1⟩ stA).2.undo
          (commitMove [lineA] [] ⟨0, 0⟩ ⟨1, 1⟩ stA).1).entities
      = mapLookup "a" stA.entities :=
  (commitMove_roundTrip [lineA] [] ⟨0, 0⟩ ⟨1, 1⟩ stA (by simp)
      (by simp) (by intro e he; simp at he; subst he; rfl)
      (by intro p hp; cases hp)).1 "a"

/-! ### The snap selection loop -/

theorem snapFold_spec (vp : Viewport) (mousePos : Point) (l : List Candidate) :
    ∀ (acc : Option (Candidate × ℝ)),
      (∀ b m, acc = some (b, m) → m = screenDist vp mousePos b ∧ m < snapTolerance) →
      (∀ b m, List.foldl (snapStep vp mousePos) acc l = some (b, m) →
        m = screenDist vp mousePos b ∧ m < snapTolerance ∧
        (b ∈ l ∨ acc = some (b, m)) ∧
        (∀ c ∈ l, screenDist vp mousePos c < snapTolerance →
          m ≤ screenDist vp mousePos c) ∧
        (∀ b0 m0, acc = some (b0, m0) → m ≤ m0)) ∧
      (List.foldl (snapStep vp mousePos) acc l = none →
        acc = none ∧ ∀ c ∈ l, ¬ screenDist vp mousePos c < snapTolerance) := by
  induction l with
  | nil =>
      intro acc hacc
      constructor
      · intro b m hr
        simp only [List.foldl_nil] at hr
        obtain ⟨h1, h2⟩ := hacc b m hr
        refine ⟨h1, h2, Or.inr hr, by simp, ?_⟩
        intro b0 m0 h0
        rw [hr] at h0
        exact le_of_eq (congrArg Prod.snd (Option.some.inj h0))
      · intro hr
        simp only [List.foldl_nil] at hr
        exact ⟨hr, by simp⟩
  | cons c cs ih =>
      intro acc hacc
      have hstep :
          (snapStep vp mousePos acc c = some (c, screenDist vp mousePos c) ∧
            screenDist vp mousePos c < snapTolerance ∧
            (∀ b0 m0, acc = some (b0, m0) → screenDist vp mousePos c < m0)) ∨
          (snapStep vp mousePos acc c = acc ∧
            (acc = none → ¬ screenDist vp mousePos c < snapTolerance) ∧
            (∀ b0 m0, acc = some (b0, m0) →
              screenDist vp mousePos c < snapTolerance →
              m0 ≤ screenDist vp mousePos c)) := by
        cases acc with
        | none =>
            by_cases hd : screenDist vp mousePos c < snapTolerance
            · exact Or.inl ⟨by simp [snapStep, hd], hd, by simp⟩
            · exact Or.inr ⟨by simp [snapStep, hd], fun _ => hd, by simp⟩
        | some p =>
            obtain ⟨b, m⟩ := p
            by_cases hcond : screenDist vp mousePos c < snapTolerance ∧
                screenDist vp mousePos c < m
            · refine Or.inl ⟨by simp [snapStep, hcond], hcond.1, ?_⟩
              intro b0 m0 h0
              obtain ⟨rfl, rfl⟩ : b = b0 ∧ m = m0 := by simpa using h0
              exact hcond.2
            · refine Or.inr ⟨by simp [snapStep, hcond], by simp, ?_⟩
              intro b0 m0 h0 hdt
              obtain ⟨rfl, rfl⟩ : b = b0 ∧ m = m0 := by simpa using h0
              exact le_of_not_lt (not_and.mp hcond hdt)
      have hInv : ∀ b m, snapStep vp mousePos acc c = some (b, m) →
          m = screenDist vp mousePos b ∧ m < snapTolerance := by
        rcases hstep with ⟨heq, hd, _⟩ | ⟨heq, _, _⟩
        · intro b m h0
          rw [heq] at h0
          obtain ⟨rfl, rfl⟩ : c = b ∧ screenDist vp mousePos c = m := by simpa using h0
          exact ⟨rfl, hd⟩
        · intro b m h0
          rw [heq] at h0
          exact hacc b m h0
      obtain ⟨IHsome, IHnone⟩ := ih (snapStep vp mousePos acc c) hInv
      constructor
      · intro b' m' hr
        rw [List.foldl_cons] at hr
        obtain ⟨G1, G2, G3, G4, G5⟩ := IHsome b' m' hr
        refine ⟨G1, G2, ?_, ?_, ?_⟩
        · rcases G3 with h3 | h3
          · exact Or.inl (List.mem_cons_of_mem _ h3)
          · rcases hstep with ⟨heq, _, _⟩ | ⟨heq, _, _⟩
            · rw [heq] at h3
              obtain ⟨rfl, _⟩ : c = b' ∧ screenDist vp mousePos c = m' := by simpa using h3
              exact Or.inl (List.mem_cons_self _ _)
            · rw [heq] at h3
              exact Or.inr h3
        · intro c' hc' hlt
          rcases List.mem_cons.mp hc' with rfl | hmem
          · rcases hstep with ⟨heq, _, _⟩ | ⟨heq, hnone, hsome⟩
            · exact G5 c' (screenDist vp mousePos c') heq
            · cases hacc0 : acc with
              | none => exact absurd hlt (hnone hacc0)
              | some p =>
                  obtain ⟨b0, m0⟩ := p
                  exact (G5 b0 m0 (by rw [heq, hacc0])).trans (hsome b0 m0 hacc0 hlt)
          · exact G4 c' hmem hlt
        · intro b0 m0 h0
          rcases hstep with ⟨heq, _, hlt0⟩ | ⟨heq, _, _⟩
          · exact (G5 c _ heq).trans (le_of_lt (hlt0 b0 m0 h0))
          · exact G5 b0 m0 (by rw [heq, h0])
      · intro hr
        rw [List.foldl_cons] at hr
        obtain ⟨hn, hall⟩ := IHnone hr
        rcases hstep with ⟨heq, _, _⟩ | ⟨heq, hnone, _⟩
        · rw [heq] at hn
          exact Option.noConfusion hn
        · rw [heq] at hn
          subst hn
          refine ⟨rfl, ?_⟩
          intro c' hc'
          rcases List.mem_cons.mp hc' with rfl | hmem
          · exact hnone rfl
          · exact hall c' hmem

/-- C1 (amended): `findSnapPoint` returns `none` when snapping is globally
disabled (the function itself does not consult the active-command marker — the
caller gates on it); a `TypeError` thrown while generating candidates (a store
arc under endpoint/midpoint snapping, a store rectangle under center snapping)
propagates out; and whenever generation completes with a candidate list, the
result is a candidate of that list below the 10-pixel screen tolerance of
minimal screen distance to the raw pointer — `none` exactly when no candidate
is below the tolerance. -/
theorem findSnapPoint_spec (st : Store) (mousePos : Point) (vp : Viewport) :
    (st.snap.enabled = false → findSnapPoint st mousePos vp = .ok none) ∧
    (st.snap.enabled = true → ∀ err, snapCandidates st mousePos vp = .error err →
      findSnapPoint st mousePos vp = .error err) ∧
    (∀ candidates, snapCandidates st mousePos vp = .ok candidates →
      (∀ c, findSnapPoint st mousePos vp = .ok (some c) →
        c ∈ candidates ∧
        screenDist vp mousePos c < snapTolerance ∧
        ∀ c' ∈ candidates,
          screenDist vp mousePos c' < snapTolerance →
          screenDist vp mousePos c ≤ screenDist vp mousePos c') ∧
      ((∀ c' ∈ candidates, ¬ screenDist vp mousePos c' < snapTolerance) →
        findSnapPoint st mousePos vp = .ok none) ∧
      (st.snap.enabled = true →
        (∃ c' ∈ candidates, screenDist vp mousePos c' < snapTolerance) →
        ∃ c, findSnapPoint st mousePos vp = .ok (some c))) := by
  refine ⟨fun h => ?_, fun hen err herr => ?_, fun candidates hcand => ?_⟩
  · simp [findSnapPoint, h]
  · rw [findSnapPoint, if_neg (by simp [hen]), herr]
  · obtain ⟨Hsome, Hnone⟩ := snapFold_spec vp mousePos candidates none (by simp)
    refine ⟨fun c hc => ?_, fun h => ?_, fun hen hex => ?_⟩
    · rw [findSnapPoint] at hc
      by_cases henb : st.snap.enabled = false
      · rw [if_pos henb] at hc
        exact Option.noConfusion (Except.ok.inj hc)
      · rw [if_neg henb, hcand] at hc
        dsimp only at hc
        obtain ⟨⟨b, m⟩, hp, hbc⟩ := Option.map_eq_some'.mp (Except.ok.inj hc)
        dsimp only at hbc
        subst hbc
        obtain ⟨G1, G2, G3, G4, _⟩ := Hsome b m hp
        rcases G3 with h3 | h3
        · refine ⟨h3, G1 ▸ G2, ?_⟩
          intro c' hc' hlt
          exact G1 ▸ G4 c' hc' hlt
        · exact Option.noConfusion h3
    · rw [findSnapPoint]
      by_cases henb : st.snap.enabled = false
      · rw [if_pos henb]
      · rw [if_neg henb, hcand]
        dsimp only
        rcases hfc : List.foldl (snapStep vp mousePos) none candidates with _ | p
        · rfl
        · obtain ⟨b, m⟩ := p
          obtain ⟨G1, G2, G3, _, _⟩ := Hsome b m hfc
          rcases G3 with h3 | h3
          · exact absurd (G1 ▸ G2) (h b h3)
          · exact Option.noConfusion h3
    · rw [findSnapPoint, if_neg (by simp [hen]), hcand]
      dsimp only
      rcases hfc : List.foldl (snapStep vp mousePos) none candidates with _ | p
      · obtain ⟨_, hall⟩ := Hnone hfc
        obtain ⟨c', hc', hlt⟩ := hex
        exact absurd hlt (hall c' hc')
      · exact ⟨p.1, rfl⟩

/-- Witness for C1: on the concrete store with snapping disabled the engine
yields no snap. -/
theorem findSnapPoint_spec_witness :
    findSnapPoint stOff ⟨0, 0⟩ vpId = .ok none :=
  (findSnapPoint_spec stOff ⟨0, 0⟩ vpId).1 rfl

/-- Counterexample for C1 as stated: in a store with no active command but
snapping enabled, `findSnapPoint` still returns a snap (here, an endpoint of
the line entity under the pointer) — the function does not return `none`
merely because no command is active. -/
theorem findSnapPoint_noCommand_counterexample :
    stZ.currentCommand = none ∧ findSnapPoint stZ ⟨0, 0⟩ vpId ≠ .ok none := by
  refine ⟨rfl, ?_⟩
  have hrec : recordIntersects
      ⟨(toWorld vpId ⟨0, 0⟩).x - snapTolerance / vpId.scale,
       (toWorld vpId ⟨0, 0⟩).y - snapTolerance / vpId.scale,
       (toWorld vpId ⟨0, 0⟩).x + snapTolerance / vpId.scale,
       (toWorld vpId ⟨0, 0⟩).y + snapTolerance / vpId.scale⟩
      ⟨0, 0, 0, 0, "z"⟩ := by
    unfold recordIntersects toWorld vpId snapTolerance
    norm_num
  have hnear : getNearbyEntities stZ (toWorld vpId ⟨0, 0⟩) vpId = [lineZ] := by
    unfold getNearbyEntities queryEntities search
    dsimp only
    rw [show stZ.index = [⟨0, 0, 0, 0, "z"⟩] from rfl,
      List.filter_cons, if_pos (decide_eq_true hrec)]
    simp [List.filterMap, mapLookup, stZ]
  have hsc : snapCandidates stZ ⟨0, 0⟩ vpId
      = .ok [⟨⟨0, 0⟩, "endpoint", "z", ⟨"square", 8⟩⟩,
             ⟨⟨0, 0⟩, "endpoint", "z", ⟨"square", 8⟩⟩,
             ⟨⟨(0 + 0) / 2, (0 + 0) / 2⟩, "midpoint", "z", ⟨"triangle", 8⟩⟩,
             ⟨nearestPointOnLine ⟨0, 0⟩ ⟨0, 0⟩ (toWorld vpId ⟨0, 0⟩), "nearest", "z",
               ⟨"x", 6⟩⟩] := by
    unfold snapCandidates
    dsimp only
    rw [hnear]
    rfl
  have hdist : screenDist vpId ⟨0, 0⟩ ⟨⟨0, 0⟩, "endpoint", "z", ⟨"square", 8⟩⟩
      < snapTolerance := by
    unfold screenDist toScreen vpId snapTolerance
    norm_num
  intro h
  rw [findSnapPoint, if_neg (by simp [stZ]), hsc] at h
  dsimp only at h
  have hfc := Option.map_eq_none'.mp (Except.ok.inj h)
  obtain ⟨_, hall⟩ := (snapFold_spec vpId ⟨0, 0⟩ _ none (by simp)).2 hfc
  exact absurd hdist (hall _ (List.mem_cons_self _ _))

/-! ### Arc bounds facts -/

theorem normalizeAngle_zero : normalizeAngle 0 = 0 := by
  simp [normalizeAngle]

theorem normalizeAngle_of_Ico (a : ℝ) (h0 : 0 ≤ a) (h1 : a < 2 * Real.pi) :
    normalizeAngle a = a := by
  unfold normalizeAngle
  have hπ : (0:ℝ) < 2 * Real.pi := by positivity
  have : ⌊a / (2 * Real.pi)⌋ = 0 := by
    rw [Int.floor_eq_zero_iff]
    constructor
    · positivity
    · rw [div_lt_one hπ]; exact h1
  rw [this]
  ring

theorem containsAngle_quarter_zero : containsAngle 0 (Real.pi / 2) 0 := by
  have hpi := Real.pi_pos
  unfold containsAngle
  dsimp only
  rw [normalizeAngle_zero,
    normalizeAngle_of_Ico (Real.pi / 2) (by positivity) (by linarith),
    if_pos (by positivity)]
  exact ⟨le_refl 0, by positivity⟩

theorem containsAngle_quarter_half : containsAngle 0 (Real.pi / 2) (Real.pi / 2) := by
  have hpi := Real.pi_pos
  unfold containsAngle
  dsimp only
  rw [normalizeAngle_zero,
    normalizeAngle_of_Ico (Real.pi / 2) (by positivity) (by linarith),
    if_pos (by positivity)]
  exact ⟨by positivity, le_refl _⟩

theorem containsAngle_quarter_pi : ¬ containsAngle 0 (Real.pi / 2) Real.pi := by
  have hpi := Real.pi_pos
  unfold containsAngle
  dsimp only
  rw [normalizeAngle_zero,
    normalizeAngle_of_Ico (Real.pi / 2) (by positivity) (by linarith),
    normalizeAngle_of_Ico Real.pi (by positivity) (by linarith),
    if_pos (by positivity)]
  rintro ⟨_, hle⟩
  linarith

theorem containsAngle_quarter_threePi :
    ¬ containsAngle 0 (Real.pi / 2) (3 * Real.pi / 2) := by
  have hpi := Real.pi_pos
  unfold containsAngle
  dsimp only
  rw [normalizeAngle_zero,
    normalizeAngle_of_Ico (Real.pi / 2) (by positivity) (by linarith),
    normalizeAngle_of_Ico (3 * Real.pi / 2) (by positivity) (by linarith),
    if_pos (by positivity)]
  rintro ⟨_, hle⟩
  linarith

/-- C2 (divergence): on a quarter arc (center `(0,0)`, radius `1`, swept from
angle `0` to `π/2`), the store's `getEntityBounds` — the bounds used to index
the arc spatially — returns the full-circle bounds `{-1,-1,1,1}`, while the
Arc class's own `getBounds` computes the true swept bounds `{0,0,1,1}` (only
the extremum angles `0` and `π/2` fall in the swept range); the two disagree,
so the indexed bounds are not the true swept bounds. -/
theorem arcBounds_divergence :
    getEntityBounds arcQ = some ⟨-1, -1, 1, 1⟩ ∧
    arcGetBounds ⟨0, 0⟩ 1 0 (Real.pi / 2) = ⟨0, 0, 1, 1⟩ ∧
    getEntityBounds arcQ ≠ some (arcGetBounds ⟨0, 0⟩ 1 0 (Real.pi / 2)) := by
  have h1 : getEntityBounds arcQ = some ⟨-1, -1, 1, 1⟩ := by
    show some (⟨0 - 1, 0 - 1, 0 + 1, 0 + 1⟩ : Bounds) = some ⟨-1, -1, 1, 1⟩
    norm_num
  have h2 : arcGetBounds ⟨0, 0⟩ 1 0 (Real.pi / 2) = ⟨0, 0, 1, 1⟩ := by
    unfold arcGetBounds arcGetStartPoint arcGetEndPoint
    dsimp only
    simp only [List.foldl_cons, List.foldl_nil]
    rw [if_pos containsAngle_quarter_zero, if_pos containsAngle_quarter_half,
      if_neg containsAngle_quarter_pi, if_neg containsAngle_quarter_threePi]
    simp only [Real.cos_zero, Real.sin_zero, Real.cos_pi_div_two, Real.sin_pi_div_two]
    norm_num
  refine ⟨h1, h2, ?_⟩
  rw [h1, h2]
  intro h
  have h' : (-1 : ℝ) = 0 := congrArg Bounds.minX (Option.some.inj h)
  norm_num at h'

end TestCad
